import Mathlib

/-!
Verification of the WordMatch secure data-exchange protocol.

This development embeds the protocol layer of the WordMatch repository:
the server's envelope construction (`api/index.js`, given here as
`src/unnamed/part_000`), the browser client's crypto manager
(`src/client/src/utils/cryptoManager.js`) and data loader
(`src/client/src/utils/dataLoader.js`).

Strings are modelled as `List Char`, byte buffers as `List Nat` with every
byte `< 256`.  Library cryptographic primitives (AES-256-GCM, SHA-256,
RSA) are not part of the repository; they are modelled abstractly, with
each such model marked in its doc comment.
-/

namespace WordMatch

/-- Byte buffers: lists of naturals, each intended to be `< 256`. -/
abbrev Bytes := List Nat

/-- Shorthand turning a string literal into the `List Char` model used here. -/
def str (s : String) : List Char := s.toList

/-! ## Hex encoding

The client generates the AES session key as 32 random bytes serialized to
lowercase hex (`cryptoManager.js`, `generateAesKey`), and both sides parse
hex back to bytes (`hexToArrayBuffer` on the client, `Buffer.from(key, 'hex')`
on the server). -/

/-- Lowercase hexadecimal digit for a value `< 16`, as produced by
JavaScript `b.toString(16)` (digits `0`-`9` then `a`-`f`). -/
def hexDigitChar (n : Nat) : Char :=
  if n < 10 then Char.ofNat (48 + n) else Char.ofNat (87 + n)

/-- Client `generateAesKey` (cryptoManager.js lines 42-51) applied to the 32
random bytes drawn by `window.crypto.getRandomValues`: each byte becomes two
lowercase hex digits (`toString(16).padStart(2, '0')`), joined. -/
def generateAesKey : Bytes → List Char
  | [] => []
  | b :: rest => hexDigitChar (b / 16) :: hexDigitChar (b % 16) :: generateAesKey rest

/-- Value of a single hex digit, as `parseInt(c, 16)` computes it
(invalid digits are mapped to `0`, standing in for the `NaN`-to-`0`
coercion a `Uint8Array` store performs). -/
def hexDigitVal (c : Char) : Nat :=
  if 48 ≤ c.toNat ∧ c.toNat ≤ 57 then c.toNat - 48
  else if 97 ≤ c.toNat ∧ c.toNat ≤ 102 then c.toNat - 87
  else if 65 ≤ c.toNat ∧ c.toNat ≤ 70 then c.toNat - 55
  else 0

/-- Hex string to bytes, two characters per byte, as done by the client's
`hexToArrayBuffer` (cryptoManager.js lines 151-157) and by the server's
`Buffer.from(aesKey, 'hex')` (part_000 line 244). -/
def hexToBytes : List Char → Bytes
  | c1 :: c2 :: rest => (16 * hexDigitVal c1 + hexDigitVal c2) :: hexToBytes rest
  | _ => []

/-- A lowercase hex digit: `0`-`9` or `a`-`f`.  These are the only
characters `generateAesKey` emits. -/
def isLowerHexDigit (c : Char) : Prop :=
  (48 ≤ c.toNat ∧ c.toNat ≤ 57) ∨ (97 ≤ c.toNat ∧ c.toNat ≤ 102)

instance (c : Char) : Decidable (isLowerHexDigit c) := by
  unfold isLowerHexDigit; infer_instance

/-! ## Base64

The server returns every envelope field base64-encoded
(`Buffer.toString('base64')`, `digest('base64')`, part_000 lines 247-257);
the client decodes them with `atob` (`base64ToArrayBuffer`,
cryptoManager.js lines 141-148).  Both are the standard base64 alphabet
with `=` padding; they are library primitives, modelled here directly. -/

/-- Character of the standard base64 alphabet for a 6-bit group. -/
def base64Char (n : Nat) : Char :=
  if n < 26 then Char.ofNat (65 + n)
  else if n < 52 then Char.ofNat (97 + (n - 26))
  else if n < 62 then Char.ofNat (48 + (n - 52))
  else if n = 62 then '+'
  else '/'

/-- Inverse of `base64Char` (non-alphabet characters map to `0`). -/
def b64Val (c : Char) : Nat :=
  if 65 ≤ c.toNat ∧ c.toNat ≤ 90 then c.toNat - 65
  else if 97 ≤ c.toNat ∧ c.toNat ≤ 122 then c.toNat - 97 + 26
  else if 48 ≤ c.toNat ∧ c.toNat ≤ 57 then c.toNat - 48 + 52
  else if c = '+' then 62
  else if c = '/' then 63
  else 0

/-- Standard base64 encoding of a byte buffer (three bytes per four
characters, `=`-padded), as produced by node's `Buffer.toString('base64')`. -/
def base64Encode : Bytes → List Char
  | [] => []
  | [b1] => [base64Char (b1 / 4), base64Char (b1 % 4 * 16), '=', '=']
  | [b1, b2] =>
      [base64Char (b1 / 4), base64Char (b1 % 4 * 16 + b2 / 16),
       base64Char (b2 % 16 * 4), '=']
  | b1 :: b2 :: b3 :: rest =>
      base64Char (b1 / 4) :: base64Char (b1 % 4 * 16 + b2 / 16) ::
      base64Char (b2 % 16 * 4 + b3 / 64) :: base64Char (b3 % 64) ::
      base64Encode rest

/-- Standard base64 decoding (browser `atob` followed by the char-code
extraction of `base64ToArrayBuffer`), on well-formed input. -/
def base64Decode : List Char → Bytes
  | c1 :: c2 :: c3 :: c4 :: rest =>
      if c3 = '=' then [4 * b64Val c1 + b64Val c2 / 16]
      else if c4 = '=' then
        [4 * b64Val c1 + b64Val c2 / 16, 16 * (b64Val c2 % 16) + b64Val c3 / 4]
      else
        (4 * b64Val c1 + b64Val c2 / 16) ::
        (16 * (b64Val c2 % 16) + b64Val c3 / 4) ::
        (64 * (b64Val c3 % 4) + b64Val c4) ::
        base64Decode rest
  | _ => []

/-- Characters emitted by `base64Encode` lie in the base64 alphabet or are
the padding character; in particular none of them is a dash (PEM marker
character), which claim C7 relies on. -/
def isB64OutChar (c : Char) : Prop :=
  (∃ n, n < 64 ∧ c = base64Char n) ∨ c = '='

/-! ## Abstract cryptographic primitives

AES-256-GCM, its authentication tag, and SHA-256 are library primitives
(node `crypto`, WebCrypto, CryptoJS), not code of this repository. -/

/-- Modelled from the spec: the AES-256-GCM keystream, authentication tag
and the SHA-256 digest.  `ks key iv i` is the i-th keystream byte under a
key and nonce (GCM is a counter mode: ciphertext = plaintext XOR
keystream); `tag key iv ct` is the 16-byte (128-bit) authentication tag
over the ciphertext; `sha256` is the 32-byte digest.  The format
guarantees (byte bounds, 16-byte tag, 32-byte digest) are those the spec
states for AES-256-GCM and SHA-256. -/
structure CryptoPrims where
  ks : Bytes → Bytes → Nat → Nat
  ks_lt : ∀ k iv i, ks k iv i < 256
  tag : Bytes → Bytes → Bytes → Bytes
  tag_length : ∀ k iv c, (tag k iv c).length = 16
  tag_lt : ∀ k iv c, ∀ b ∈ tag k iv c, b < 256
  sha256 : Bytes → Bytes
  sha256_length : ∀ m, (sha256 m).length = 32
  sha256_lt : ∀ m, ∀ b ∈ sha256 m, b < 256

/-- XOR a buffer against the keystream starting at position `i`. -/
def xorKsFrom (p : CryptoPrims) (key iv : Bytes) : Nat → Bytes → Bytes
  | _, [] => []
  | i, b :: rest => (b ^^^ p.ks key iv i) :: xorKsFrom p key iv (i + 1) rest

/-- GCM body operation: XOR the buffer against the keystream for
`(key, iv)`.  Applying it to a plaintext encrypts, to a ciphertext
decrypts. -/
def xorKeystream (p : CryptoPrims) (key iv pt : Bytes) : Bytes :=
  xorKsFrom p key iv 0 pt

/-- Modelled from the spec: WebCrypto `subtle.decrypt` with
`{ name: 'AES-GCM', iv, tagLength: 128 }` on the combined
ciphertext-plus-tag buffer.  Per the GCM specification it splits off the
trailing 16-byte tag, recomputes the tag over the ciphertext, and returns
the decrypted bytes only if the tags match, failing otherwise — the
plaintext is never released on an authentication failure. -/
def gcmDecrypt (p : CryptoPrims) (key iv combined : Bytes) : Option Bytes :=
  let ct := combined.take (combined.length - 16)
  let t := combined.drop (combined.length - 16)
  if t = p.tag key iv ct then some (xorKeystream p key iv ct) else none

/-! ## The encrypted envelope -/

/-- The four base64 string fields the server returns per request
(part_000 lines 253-258). -/
structure Envelope where
  encryptedData : List Char
  iv : List Char
  authTag : List Char
  hash : List Char
deriving DecidableEq

/-- Server-side envelope construction (part_000 lines 240-258, identical
code at lines 359-378): parse the session key from hex, draw the nonce,
AES-256-GCM-encrypt the payload string, take the authentication tag, hash
the plaintext with SHA-256, and base64-encode all four fields. -/
def encryptPayload (p : CryptoPrims) (aesKeyHex : List Char) (iv pt : Bytes) : Envelope :=
  let key := hexToBytes aesKeyHex
  let ct := xorKeystream p key iv pt
  { encryptedData := base64Encode ct
    iv := base64Encode iv
    authTag := base64Encode (p.tag key iv ct)
    hash := base64Encode (p.sha256 pt) }

/-- The single error kind the client's `decryptData` surfaces: its
`try/catch` rethrows any WebCrypto failure as `Error('Failed to decrypt
data')` (cryptoManager.js lines 105-107), which the spec taxonomy calls
`AuthenticationFailed`. -/
inductive DecryptError where
  | authenticationFailed
deriving DecidableEq

/-- Client `decryptData` (cryptoManager.js lines 78-108): import the hex
session key, base64-decode the three envelope fields, concatenate
ciphertext and tag as AES-GCM requires, and decrypt; any failure is caught
and surfaced as the single authentication-failure error, with no
plaintext returned. -/
def decryptData (p : CryptoPrims) (encryptedData iv authTag aesKeyHex : List Char) :
    Except DecryptError Bytes :=
  let key := hexToBytes aesKeyHex
  let ivBuffer := base64Decode iv
  let encryptedBuffer := base64Decode encryptedData
  let authTagBuffer := base64Decode authTag
  let combinedBuffer := encryptedBuffer ++ authTagBuffer
  match gcmDecrypt p key ivBuffer combinedBuffer with
  | some ptBytes => Except.ok ptBytes
  | none => Except.error DecryptError.authenticationFailed

/-- Client `verifyDataIntegrity` (cryptoManager.js lines 110-123):
recompute the SHA-256 hash of the decrypted data, base64-encode it, and
compare with the expected hash string. -/
def verifyDataIntegrity (p : CryptoPrims) (decryptedData : Bytes) (expectedHash : List Char) :
    Bool :=
  decide (base64Encode (p.sha256 decryptedData) = expectedHash)

/-! ## RSA key wrapping -/

/-- Modelled from the spec: RSA with PKCS#1 v1.5 padding as implemented by
the JSEncrypt browser library (client side, `jsEncrypt.encrypt`) and
node-rsa (server side, `rsaKey.decrypt`).  `encrypt` returns `none` where
JSEncrypt returns `false`; `decrypt` returns `none` where node-rsa
throws. -/
structure RSA where
  encrypt : List Char → List Char → Option (List Char)
  decrypt : List Char → List Char → Option (List Char)

/-- The internal state of the client `CryptoManager` module
(cryptoManager.js lines 11-13): the cached server public key and the
initialization flag set by `init`. -/
structure CMState where
  publicKey : Option (List Char)
  inited : Bool

/-- Errors thrown by the client's `encryptAesKey`. -/
inductive EncryptKeyError where
  | notInited
  | encryptFailed
deriving DecidableEq

/-- Client `encryptAesKey` (cryptoManager.js lines 53-75): throws when the
manager is uninitialized or has no public key; otherwise RSA-encrypts the
hex session key under the cached public key, throwing when the library
reports failure. -/
def encryptAesKey (rsa : RSA) (st : CMState) (aesKey : List Char) :
    Except EncryptKeyError (List Char) :=
  match st.inited, st.publicKey with
  | true, some pk =>
    match rsa.encrypt pk aesKey with
    | some encrypted => Except.ok encrypted
    | none => Except.error EncryptKeyError.encryptFailed
  | _, _ => Except.error EncryptKeyError.notInited

/-! ## Randomness sources -/

/-- Modelled from the spec: `crypto.randomBytes(16)` (part_000 lines 243
and 363) returns exactly 16 fresh random bytes. -/
structure IvDraw where
  bytes : Bytes
  length_eq : bytes.length = 16
  lt : ∀ b ∈ bytes, b < 256

/-- Modelled from the spec: `JSON.stringify` of a vocabulary array,
producing the UTF-8 payload string both endpoints encrypt and hash
(part_000 lines 240 and 360). -/
structure Serializer (α : Type) where
  toBytes : List α → Bytes
  lt : ∀ v, ∀ b ∈ toBytes v, b < 256

/-- Modelled from the spec: the random index draw
`Math.floor(Math.random() * (i + 1))` of the server's `shuffleArray`
(part_000 line 396), always in `[0, i]`. -/
structure Shuffler where
  pick : Nat → Nat
  pick_le : ∀ i, pick i ≤ i

/-! ## Fisher-Yates shuffle (server, part_000 lines 393-400) -/

/-- One swap `[a[i], a[j]] = [a[j], a[i]]` of the shuffle loop. -/
def swapList (l : List α) (i j : Nat) : List α :=
  match l[i]?, l[j]? with
  | some x, some y => (l.set i y).set j x
  | _, _ => l

/-- Loop of the server's `shuffleArray`, with `i` running downwards. -/
def fyGo (sh : Shuffler) : Nat → List α → List α
  | 0, l => l
  | i + 1, l => fyGo sh i (swapList l (i + 1) (sh.pick (i + 1)))

/-- Server `shuffleArray` (part_000 lines 393-400): Fisher-Yates on a copy
of the array, swapping index `i` (from `length - 1` down to `1`) with a
random index in `[0, i]`. -/
def shuffleArray (sh : Shuffler) (l : List α) : List α :=
  fyGo sh (l.length - 1) l

/-! ## JavaScript parseInt (base 10) -/

/-- Digit run at the front of a string: `none` when there is no leading
digit (which `parseInt` reports as `NaN`). -/
def parseDigits (s : List Char) : Option Nat :=
  let ds := s.takeWhile Char.isDigit
  if ds.isEmpty then none
  else some (ds.foldl (fun acc c => 10 * acc + (c.toNat - 48)) 0)

/-- Modelled from the spec: JavaScript `parseInt(count, 10)` (part_000
line 323): skip leading whitespace, read an optional sign and the longest
leading digit run; `none` models `NaN`. -/
def parseIntJS (s : List Char) : Option Int :=
  let t := s.dropWhile Char.isWhitespace
  match t with
  | '-' :: rest => (parseDigits rest).map (fun n => -(n : Int))
  | '+' :: rest => (parseDigits rest).map (fun n => (n : Int))
  | _ => (parseDigits t).map (fun n => (n : Int))

/-! ## Server endpoints (part_000) -/

/-- Vocabulary file name for a volume/unit pair (part_000 lines 229-231
and 345-347). -/
def fileName (volume unit : List Char) : List Char :=
  if unit = str "welcome" then
    str "Volume" ++ volume ++ str "_Welcome_Unit.json"
  else
    str "Volume" ++ volume ++ str "_Unit_" ++ unit ++ str ".json"

/-- The 404 message `Volume ${volume} Unit ${unit} not found`
(part_000 lines 261 and 381). -/
def notFoundMsg (volume unit : List Char) : List Char :=
  str "Volume " ++ volume ++ str " Unit " ++ unit ++ str " not found"

/-- Body of an HTTP response of the server. -/
inductive ResponseBody where
  | pubKey (pem : List Char)
  | unitsList (pairs : List (List Char × List Char))
  | envelope (e : Envelope)
  | errMsg (msg : List Char)
deriving DecidableEq

/-- An HTTP response: status code plus JSON body. -/
structure HttpResponse where
  status : Nat
  body : ResponseBody
deriving DecidableEq

/-- All string payloads carried by a response body (for the private-key
non-disclosure claim C7). -/
def respStrings (r : HttpResponse) : List (List Char) :=
  match r.body with
  | ResponseBody.pubKey pem => [pem]
  | ResponseBody.unitsList pairs => pairs.map Prod.fst ++ pairs.map Prod.snd
  | ResponseBody.envelope e => [e.encryptedData, e.iv, e.authTag, e.hash]
  | ResponseBody.errMsg msg => [msg]

/-- Strip an expected run of characters from the front. -/
def stripFront (pre l : List Char) : Option (List Char) :=
  if l.take pre.length = pre then some (l.drop pre.length) else none

/-- Match the regex `Volume(\d+)_(?:(Unit)_(\d+)|Welcome_Unit)\.json`
(part_000 line 128) at the start of `l`, returning the volume capture and
the unit value the handler derives (the digit capture, or `welcome` for a
Welcome unit). -/
def matchVocabAt (l : List Char) : Option (List Char × List Char) :=
  match stripFront (str "Volume") l with
  | none => none
  | some r1 =>
    if (r1.takeWhile Char.isDigit).isEmpty then none
    else
      match stripFront ['_'] (r1.drop (r1.takeWhile Char.isDigit).length) with
      | none => none
      | some r2 =>
        match stripFront (str "Unit_") r2 with
        | some r3 =>
          if (r3.takeWhile Char.isDigit).isEmpty then none
          else if (r3.drop (r3.takeWhile Char.isDigit).length).take 5 = str ".json"
          then some (r1.takeWhile Char.isDigit, r3.takeWhile Char.isDigit)
          else none
        | none =>
          match stripFront (str "Welcome_Unit.json") r2 with
          | some _ => some (r1.takeWhile Char.isDigit, str "welcome")
          | none => none

/-- Unanchored regex search: first position where `matchVocabAt`
succeeds, as `String.prototype.match` finds the first match. -/
def searchVocabName : List Char → Option (List Char × List Char)
  | [] => none
  | c :: rest =>
    match matchVocabAt (c :: rest) with
    | some r => some r
    | none => searchVocabName rest

/-- Whether a file name ends with `.json` (part_000 line 127). -/
def endsWithJson (l : List Char) : Bool :=
  decide (l.drop (l.length - 5) = str ".json")

/-- `GET /api/units` handler core (part_000 lines 118-149): keep `.json`
files whose names match the volume/unit pattern and report the extracted
volume and unit strings (the JS groups them into an object keyed by
volume; the pairs carry the same strings). -/
def unitsHandler (fileNames : List (List Char)) : List (List Char × List Char) :=
  (fileNames.filter endsWithJson).filterMap searchVocabName

/-- Everything the server's request handling depends on: the RSA keypair
halves, the crypto primitives, the vocabulary files (by name) and their
directory listing, and the payload serializer.  `α` is the type of one
vocabulary entry. -/
structure ServerCtx (α : Type) where
  prims : CryptoPrims
  rsa : RSA
  priv : List Char
  pub : List Char
  files : List Char → Option (List α)
  fileNames : List (List Char)
  ser : Serializer α

/-- `POST /api/secure/vocabulary/:volume/:unit` handler (part_000 lines
209-270): reject a missing (or empty, JS falsy) wrapped key with 400;
RSA-decrypt the session key, rejecting failures with 400
`Invalid encrypted AES key`; look up the vocabulary file, answering 404
when absent; otherwise encrypt the serialized vocabulary under the
recovered key with a fresh 16-byte IV and return the envelope. -/
def secureVocabHandler (ctx : ServerCtx α) (ivd : IvDraw)
    (volume unit : List Char) (body : Option (List Char)) : HttpResponse :=
  match body with
  | none => ⟨400, ResponseBody.errMsg (str "Missing encrypted AES key")⟩
  | some encryptedAesKey =>
    if encryptedAesKey.isEmpty then
      ⟨400, ResponseBody.errMsg (str "Missing encrypted AES key")⟩
    else
      match ctx.rsa.decrypt ctx.priv encryptedAesKey with
      | none => ⟨400, ResponseBody.errMsg (str "Invalid encrypted AES key")⟩
      | some aesKey =>
        match ctx.files (fileName volume unit) with
        | none => ⟨404, ResponseBody.errMsg (notFoundMsg volume unit)⟩
        | some vocab =>
          ⟨200, ResponseBody.envelope
            (encryptPayload ctx.prims aesKey ivd.bytes (ctx.ser.toBytes vocab))⟩

/-- `POST /api/secure/vocabulary/:volume/:unit/count/:count` handler
(part_000 lines 320-390): additionally parse the `count` path parameter
with `parseInt(count, 10)`, rejecting `NaN` or values below 1 with 400
`Invalid count parameter`; on success shuffle the vocabulary and keep the
first `min(count, length)` entries before encrypting, under the same
RSA-unwrap and AES-256-GCM envelope scheme as the primary endpoint. -/
def secureVocabCountHandler (ctx : ServerCtx α) (ivd : IvDraw) (sh : Shuffler)
    (volume unit count : List Char) (body : Option (List Char)) : HttpResponse :=
  match parseIntJS count with
  | none => ⟨400, ResponseBody.errMsg (str "Invalid count parameter")⟩
  | some wordCount =>
    if wordCount < 1 then
      ⟨400, ResponseBody.errMsg (str "Invalid count parameter")⟩
    else
      match body with
      | none => ⟨400, ResponseBody.errMsg (str "Missing encrypted AES key")⟩
      | some encryptedAesKey =>
        if encryptedAesKey.isEmpty then
          ⟨400, ResponseBody.errMsg (str "Missing encrypted AES key")⟩
        else
          match ctx.rsa.decrypt ctx.priv encryptedAesKey with
          | none => ⟨400, ResponseBody.errMsg (str "Invalid encrypted AES key")⟩
          | some aesKey =>
            match ctx.files (fileName volume unit) with
            | none => ⟨404, ResponseBody.errMsg (notFoundMsg volume unit)⟩
            | some vocab =>
              let shuffled := shuffleArray sh vocab
              let selected := shuffled.take (min wordCount.toNat shuffled.length)
              ⟨200, ResponseBody.envelope
                (encryptPayload ctx.prims aesKey ivd.bytes (ctx.ser.toBytes selected))⟩

/-- A request to one of the server's endpoints. -/
inductive Request where
  | publicKey
  | units
  | secureVocab (volume unit : List Char) (body : Option (List Char))
  | secureVocabCount (volume unit count : List Char) (body : Option (List Char))

/-- Full request dispatch across the server's endpoints (part_000 lines
87-89, 118-149, 209-270, 320-390). -/
def serve (ctx : ServerCtx α) (ivd : IvDraw) (sh : Shuffler) : Request → HttpResponse
  | Request.publicKey => ⟨200, ResponseBody.pubKey ctx.pub⟩
  | Request.units => ⟨200, ResponseBody.unitsList (unitsHandler ctx.fileNames)⟩
  | Request.secureVocab volume unit body => secureVocabHandler ctx ivd volume unit body
  | Request.secureVocabCount volume unit count body =>
    secureVocabCountHandler ctx ivd sh volume unit count body

/-- The client-supplied path parameters a request carries (these are the
only request strings the server ever interpolates into a response). -/
def reqParams : Request → List (List Char)
  | Request.publicKey => []
  | Request.units => []
  | Request.secureVocab volume unit _ => [volume, unit]
  | Request.secureVocabCount volume unit count _ => [volume, unit, count]

/-! ## Client lazy crypto initialization (dataLoader.js lines 14-15 and
60-72), modelled as the JavaScript event-loop interleaving of two calls
to `loadServerVocabularyData`.

Each call runs synchronously up to `await API.getPublicKey()` — issuing
the fetch — then suspends; when resumed it completes `CryptoManager.init`
and only then sets `cryptoInitialized = true`.  A scheduler step runs one
task either from its start to its first suspension or from resumption to
completion. -/

/-- Program counter of one call's initialization section. -/
inductive TaskPc where
  | start
  | awaitingFetch
  | done
deriving DecidableEq

/-- Module state of dataLoader.js plus the count of public-key fetches
actually issued. -/
structure InitState where
  cryptoInited : Bool
  fetchCount : Nat
deriving DecidableEq

/-- One scheduler step of a single task: from `start`, the guard
`if (!cryptoInitialized)` is evaluated; when false the fetch is issued
(counted) and the task suspends at the `await`; when true the task skips
initialization entirely.  From `awaitingFetch`, the task resumes, runs
`CryptoManager.init`, and sets the flag. -/
def initStep : TaskPc × InitState → TaskPc × InitState
  | (TaskPc.start, s) =>
    if s.cryptoInited then (TaskPc.done, s)
    else (TaskPc.awaitingFetch, { s with fetchCount := s.fetchCount + 1 })
  | (TaskPc.awaitingFetch, s) => (TaskPc.done, { s with cryptoInited := true })
  | (TaskPc.done, s) => (TaskPc.done, s)

/-- Two concurrent calls (`A` and `B`) plus the shared module state. -/
structure TwoTasks where
  pcA : TaskPc
  pcB : TaskPc
  st : InitState
deriving DecidableEq

/-- Run one scheduler step of task `A` (`true`) or task `B` (`false`). -/
def schedStep (runA : Bool) (t : TwoTasks) : TwoTasks :=
  if runA then
    let r := initStep (t.pcA, t.st)
    { t with pcA := r.1, st := r.2 }
  else
    let r := initStep (t.pcB, t.st)
    { t with pcB := r.1, st := r.2 }

/-- Run a schedule (list of task choices) from a state. -/
def runSched (sched : List Bool) (t : TwoTasks) : TwoTasks :=
  sched.foldl (fun acc c => schedStep c acc) t

/-- Both calls at their start, module freshly loaded, no fetch yet. -/
def initialTasks : TwoTasks :=
  ⟨TaskPc.start, TaskPc.start, ⟨false, 0⟩⟩

/-! ## Client `loadServerVocabularyData` (dataLoader.js lines 52-116) -/

/-- What the transport produced for the secure-vocabulary fetch: a
response with an envelope, a non-OK HTTP response (e.g. a 404), or a
network failure (`fetch` rejecting). -/
inductive FetchOutcome where
  | ok (env : Envelope)
  | httpError (status : Nat)
  | networkFailure

/-- The tail of `loadServerVocabularyData` (dataLoader.js lines 89-115)
after the session key was generated and wrapped: any non-OK response is
thrown as one generic `Error`, decryption and the integrity check run on
an OK response, and the surrounding `try/catch` maps every failure —
network failure, HTTP error, failed decryption, failed integrity check —
to the same `null` (here `none`) return value. -/
def loadServerVocabularyData (p : CryptoPrims) (aesKeyHex : List Char)
    (outcome : FetchOutcome) : Option Bytes :=
  match outcome with
  | FetchOutcome.networkFailure => none
  | FetchOutcome.httpError _ => none
  | FetchOutcome.ok env =>
    match decryptData p env.encryptedData env.iv env.authTag aesKeyHex with
    | Except.error _ => none
    | Except.ok decrypted =>
      if verifyDataIntegrity p decrypted env.hash then some decrypted else none

/-! ## Decoded envelope fields

`serverCt`/`serverTag` are the ciphertext and tag bytes inside the
envelope the server builds for a given key, IV and plaintext; the
envelope carries them base64-encoded. -/

/-- Ciphertext bytes of the server's envelope. -/
def serverCt (p : CryptoPrims) (aesKeyHex : List Char) (iv pt : Bytes) : Bytes :=
  xorKeystream p (hexToBytes aesKeyHex) iv pt

/-- Authentication-tag bytes of the server's envelope. -/
def serverTag (p : CryptoPrims) (aesKeyHex : List Char) (iv pt : Bytes) : Bytes :=
  p.tag (hexToBytes aesKeyHex) iv (serverCt p aesKeyHex iv pt)

/-! ## Concrete instances used by the witness theorems -/

/-- A small concrete instance of the abstract primitives, used to witness
the hypotheses of the claims on concrete inputs. -/
def toyPrims : CryptoPrims where
  ks := fun k iv i => (k.sum + iv.sum + i) % 256
  ks_lt := fun _ _ _ => Nat.mod_lt _ (by norm_num)
  tag := fun k iv c => List.replicate 15 0 ++ [(k.sum + 2 * iv.sum + 3 * c.sum) % 256]
  tag_length := fun _ _ _ => by simp
  tag_lt := fun k iv c b hb => by
    rcases List.mem_append.mp hb with h | h
    · have := List.eq_of_mem_replicate h
      omega
    · simp only [List.mem_singleton] at h
      subst h
      exact Nat.mod_lt _ (by norm_num)
  sha256 := fun m => List.replicate 31 0 ++ [m.sum % 256]
  sha256_length := fun _ => by simp
  sha256_lt := fun m b hb => by
    rcases List.mem_append.mp hb with h | h
    · have := List.eq_of_mem_replicate h
      omega
    · simp only [List.mem_singleton] at h
      subst h
      exact Nat.mod_lt _ (by norm_num)

/-- A concrete RSA instance: wrapping prepends the public key, unwrapping
strips a matching private key from the front. -/
def toyRSA : RSA where
  encrypt := fun pub m => some (pub ++ m)
  decrypt := fun priv w =>
    if w.take priv.length = priv then some (w.drop priv.length) else none

/-- Concrete 16-byte IV draw (all ones). -/
def toyIv : IvDraw where
  bytes := List.replicate 16 1
  length_eq := by simp
  lt := fun b hb => by
    have := List.eq_of_mem_replicate hb
    omega

/-- Concrete 16-byte IV draw (all twos), for the two-run claim C6. -/
def toyIv2 : IvDraw where
  bytes := List.replicate 16 2
  length_eq := by simp
  lt := fun b hb => by
    have := List.eq_of_mem_replicate hb
    omega

/-- Concrete serializer on `Nat` entries. -/
def toySer : Serializer Nat where
  toBytes := fun v => v.map (fun n => n % 256)
  lt := fun v b hb => by
    rcases List.mem_map.mp hb with ⟨n, _, rfl⟩
    exact Nat.mod_lt _ (by norm_num)

/-- Concrete shuffler always picking index 0. -/
def toyShuffler : Shuffler where
  pick := fun _ => 0
  pick_le := fun i => Nat.zero_le i

/-- Concrete server context for the witnesses. -/
def toyCtx : ServerCtx Nat where
  prims := toyPrims
  rsa := toyRSA
  priv := str "k"
  pub := str "k"
  files := fun n => if n = fileName (str "1") (str "2") then some [10, 20, 30] else none
  fileNames := [str "Volume1_Unit_2.json"]
  ser := toySer

/-! ## Claim C10: the count endpoint -/

/-- The words the count endpoint selects: the first
`min(count, length)` entries of the shuffled vocabulary
(part_000 lines 356-357). -/
def selectedWords {α : Type} (sh : Shuffler) (w : Nat) (vocab : List α) : List α :=
  (shuffleArray sh vocab).take (min w (shuffleArray sh vocab).length)

theorem hexDigitVal_hexDigitChar : ∀ n, n < 16 → hexDigitVal (hexDigitChar n) = n := by
  decide

theorem hexToBytes_generateAesKey (bs : Bytes) (h : ∀ b ∈ bs, b < 256) :
    hexToBytes (generateAesKey bs) = bs := by
  induction bs with
  | nil => rfl
  | cons b rest ih =>
    have hb : b < 256 := h b (by simp)
    have h1 : b / 16 < 16 := by omega
    have h2 : b % 16 < 16 := by omega
    simp only [generateAesKey, hexToBytes,
      hexDigitVal_hexDigitChar _ h1, hexDigitVal_hexDigitChar _ h2,
      List.cons.injEq]
    exact ⟨by omega, ih (fun x hx => h x (by simp [hx]))⟩

theorem generateAesKey_length (bs : Bytes) :
    (generateAesKey bs).length = 2 * bs.length := by
  induction bs with
  | nil => rfl
  | cons b rest ih => simp [generateAesKey, ih]; omega

theorem isLowerHexDigit_hexDigitChar : ∀ n, n < 16 → isLowerHexDigit (hexDigitChar n) := by
  decide

theorem generateAesKey_chars (bs : Bytes) (h : ∀ b ∈ bs, b < 256) :
    ∀ c ∈ generateAesKey bs, isLowerHexDigit c := by
  induction bs with
  | nil => intro c hc; cases hc
  | cons b rest ih =>
    have hb : b < 256 := h b (by simp)
    intro c hc
    simp only [generateAesKey, List.mem_cons] at hc
    rcases hc with rfl | rfl | hc
    · exact isLowerHexDigit_hexDigitChar _ (by omega)
    · exact isLowerHexDigit_hexDigitChar _ (by omega)
    · exact ih (fun x hx => h x (by simp [hx])) c hc

theorem b64Val_base64Char : ∀ n, n < 64 → b64Val (base64Char n) = n := by
  decide

theorem base64Char_ne_eq : ∀ n, n < 64 → base64Char n ≠ '=' := by
  decide

theorem base64_decode_encode (bs : Bytes) (h : ∀ b ∈ bs, b < 256) :
    base64Decode (base64Encode bs) = bs := by
  match bs with
  | [] => rfl
  | [b1] =>
    have hb1 : b1 < 256 := h b1 (by simp)
    have e1 : b1 / 4 < 64 := by omega
    have e2 : b1 % 4 * 16 < 64 := by omega
    have d1 : b1 % 4 * 16 / 16 = b1 % 4 := by omega
    simp only [base64Encode, base64Decode, eq_self_iff_true, if_true,
      b64Val_base64Char _ e1, b64Val_base64Char _ e2, d1, List.cons.injEq]
    exact ⟨by omega, trivial⟩
  | [b1, b2] =>
    have hb1 : b1 < 256 := h b1 (by simp)
    have hb2 : b2 < 256 := h b2 (by simp)
    have e1 : b1 / 4 < 64 := by omega
    have e2 : b1 % 4 * 16 + b2 / 16 < 64 := by omega
    have e3 : b2 % 16 * 4 < 64 := by omega
    have f1 : (b1 % 4 * 16 + b2 / 16) / 16 = b1 % 4 := by omega
    have f2 : (b1 % 4 * 16 + b2 / 16) % 16 = b2 / 16 := by omega
    have f3 : b2 % 16 * 4 / 4 = b2 % 16 := by omega
    simp only [base64Encode, base64Decode, if_neg (base64Char_ne_eq _ e3),
      eq_self_iff_true, if_true,
      b64Val_base64Char _ e1, b64Val_base64Char _ e2, b64Val_base64Char _ e3,
      f1, f2, f3, List.cons.injEq]
    exact ⟨by omega, by omega, trivial⟩
  | b1 :: b2 :: b3 :: rest =>
    have hb1 : b1 < 256 := h b1 (by simp)
    have hb2 : b2 < 256 := h b2 (by simp)
    have hb3 : b3 < 256 := h b3 (by simp)
    have e1 : b1 / 4 < 64 := by omega
    have e2 : b1 % 4 * 16 + b2 / 16 < 64 := by omega
    have e3 : b2 % 16 * 4 + b3 / 64 < 64 := by omega
    have e4 : b3 % 64 < 64 := by omega
    have f1 : (b1 % 4 * 16 + b2 / 16) / 16 = b1 % 4 := by omega
    have f2 : (b1 % 4 * 16 + b2 / 16) % 16 = b2 / 16 := by omega
    have f3 : (b2 % 16 * 4 + b3 / 64) / 4 = b2 % 16 := by omega
    have f4 : (b2 % 16 * 4 + b3 / 64) % 4 = b3 / 64 := by omega
    have ih := base64_decode_encode rest (fun x hx => h x (by simp [hx]))
    simp only [base64Encode, base64Decode, if_neg (base64Char_ne_eq _ e3),
      if_neg (base64Char_ne_eq _ e4),
      b64Val_base64Char _ e1, b64Val_base64Char _ e2, b64Val_base64Char _ e3,
      b64Val_base64Char _ e4, f1, f2, f3, f4, List.cons.injEq]
    exact ⟨by omega, by omega, by omega, ih⟩

theorem base64Encode_injOn (bs1 bs2 : Bytes) (h1 : ∀ b ∈ bs1, b < 256)
    (h2 : ∀ b ∈ bs2, b < 256) (he : base64Encode bs1 = base64Encode bs2) :
    bs1 = bs2 := by
  have := base64_decode_encode bs1 h1
  rw [he, base64_decode_encode bs2 h2] at this
  exact this.symm

theorem base64Encode_chars (bs : Bytes) (h : ∀ b ∈ bs, b < 256) :
    ∀ c ∈ base64Encode bs, isB64OutChar c := by
  match bs with
  | [] => intro c hc; cases hc
  | [b1] =>
    have hb1 : b1 < 256 := h b1 (by simp)
    intro c hc
    simp only [base64Encode, List.mem_cons, List.not_mem_nil, or_false] at hc
    rcases hc with rfl | rfl | rfl | rfl
    · exact Or.inl ⟨_, by omega, rfl⟩
    · exact Or.inl ⟨_, by omega, rfl⟩
    · exact Or.inr rfl
    · exact Or.inr rfl
  | [b1, b2] =>
    have hb1 : b1 < 256 := h b1 (by simp)
    have hb2 : b2 < 256 := h b2 (by simp)
    intro c hc
    simp only [base64Encode, List.mem_cons, List.not_mem_nil, or_false] at hc
    rcases hc with rfl | rfl | rfl | rfl
    · exact Or.inl ⟨_, by omega, rfl⟩
    · exact Or.inl ⟨_, by omega, rfl⟩
    · exact Or.inl ⟨_, by omega, rfl⟩
    · exact Or.inr rfl
  | b1 :: b2 :: b3 :: rest =>
    have hb1 : b1 < 256 := h b1 (by simp)
    have hb2 : b2 < 256 := h b2 (by simp)
    have hb3 : b3 < 256 := h b3 (by simp)
    have ih := base64Encode_chars rest (fun x hx => h x (by simp [hx]))
    intro c hc
    simp only [base64Encode, List.mem_cons] at hc
    rcases hc with rfl | rfl | rfl | rfl | hc
    · exact Or.inl ⟨_, by omega, rfl⟩
    · exact Or.inl ⟨_, by omega, rfl⟩
    · exact Or.inl ⟨_, by omega, rfl⟩
    · exact Or.inl ⟨_, by omega, rfl⟩
    · exact ih c hc

theorem base64Char_ne_dash : ∀ n, n < 64 → base64Char n ≠ '-' := by
  decide

theorem dash_not_mem_base64Encode (bs : Bytes) (h : ∀ b ∈ bs, b < 256) :
    '-' ∉ base64Encode bs := by
  intro hmem
  rcases base64Encode_chars bs h '-' hmem with ⟨n, hn, hc⟩ | hc
  · exact base64Char_ne_dash n hn hc.symm
  · cases hc

theorem xorKsFrom_xorKsFrom (p : CryptoPrims) (key iv : Bytes) (i : Nat) (l : Bytes) :
    xorKsFrom p key iv i (xorKsFrom p key iv i l) = l := by
  induction l generalizing i with
  | nil => rfl
  | cons b rest ih =>
    simp only [xorKsFrom, List.cons.injEq]
    exact ⟨Nat.xor_cancel_right _ _, ih (i + 1)⟩

theorem xorKeystream_xorKeystream (p : CryptoPrims) (key iv pt : Bytes) :
    xorKeystream p key iv (xorKeystream p key iv pt) = pt :=
  xorKsFrom_xorKsFrom p key iv 0 pt

theorem xorKsFrom_lt (p : CryptoPrims) (key iv : Bytes) (i : Nat) (l : Bytes)
    (h : ∀ b ∈ l, b < 256) : ∀ b ∈ xorKsFrom p key iv i l, b < 256 := by
  induction l generalizing i with
  | nil => intro b hb; cases hb
  | cons x rest ih =>
    intro b hb
    simp only [xorKsFrom, List.mem_cons] at hb
    rcases hb with rfl | hb
    · have h1 : x < 256 := h x (by simp)
      have h2 : p.ks key iv i < 256 := p.ks_lt key iv i
      have : (256 : Nat) = 2 ^ 8 := by norm_num
      rw [this] at h1 h2 ⊢
      exact Nat.xor_lt_two_pow h1 h2
    · exact ih (i + 1) (fun x hx => h x (by simp [hx])) b hb

theorem xorKsFrom_length (p : CryptoPrims) (key iv : Bytes) (i : Nat) (l : Bytes) :
    (xorKsFrom p key iv i l).length = l.length := by
  induction l generalizing i with
  | nil => rfl
  | cons x rest ih => simp [xorKsFrom, ih]

theorem cons_set_perm (t : List α) (k : Nat) (a y : α) (h : t[k]? = some y) :
    (y :: t.set k a).Perm (a :: t) := by
  induction t generalizing k with
  | nil => simp at h
  | cons b t' ih =>
    match k with
    | 0 =>
      simp only [List.getElem?_cons_zero, Option.some.injEq] at h
      subst h
      simpa using List.Perm.swap a b t'
    | k' + 1 =>
      simp only [List.getElem?_cons_succ] at h
      show (y :: b :: t'.set k' a).Perm (a :: b :: t')
      have h1 : (y :: b :: t'.set k' a).Perm (b :: y :: t'.set k' a) :=
        List.Perm.swap b y _
      have h2 : (b :: y :: t'.set k' a).Perm (b :: a :: t') := (ih k' h).cons b
      have h3 : (b :: a :: t').Perm (a :: b :: t') := List.Perm.swap a b t'
      exact h1.trans (h2.trans h3)

theorem swapList_perm (l : List α) (i j : Nat) : (swapList l i j).Perm l := by
  induction l generalizing i j with
  | nil => simp [swapList]
  | cons a t ih =>
    match i, j with
    | 0, 0 => simp [swapList]
    | 0, k + 1 =>
      simp only [swapList, List.getElem?_cons_zero, List.getElem?_cons_succ]
      match h : t[k]? with
      | none => exact List.Perm.refl _
      | some y =>
        simp only [List.set_cons_zero, List.set_cons_succ]
        exact cons_set_perm t k a y h
    | k + 1, 0 =>
      simp only [swapList, List.getElem?_cons_zero, List.getElem?_cons_succ]
      match h : t[k]? with
      | none => exact List.Perm.refl _
      | some x =>
        simp only [List.set_cons_succ, List.set_cons_zero]
        exact cons_set_perm t k a x h
    | i' + 1, j' + 1 =>
      simp only [swapList, List.getElem?_cons_succ]
      match h1 : t[i']?, h2 : t[j']? with
      | none, _ =>
        have := ih i' j'
        simp only [swapList, h1] at this ⊢
        exact List.Perm.refl _
      | some x, none =>
        exact List.Perm.refl _
      | some x, some y =>
        simp only [List.set_cons_succ]
        have := ih i' j'
        simp only [swapList, h1, h2] at this
        exact this.cons a

theorem fyGo_perm (sh : Shuffler) (n : Nat) (l : List α) : (fyGo sh n l).Perm l := by
  induction n generalizing l with
  | zero => exact List.Perm.refl _
  | succ n ih => exact (ih _).trans (swapList_perm l (n + 1) (sh.pick (n + 1)))

theorem shuffleArray_perm (sh : Shuffler) (l : List α) : (shuffleArray sh l).Perm l :=
  fyGo_perm sh (l.length - 1) l

theorem shuffleArray_length (sh : Shuffler) (l : List α) :
    (shuffleArray sh l).length = l.length :=
  (shuffleArray_perm sh l).length_eq

/-! ## GCM decryption lemmas -/

theorem serverCt_lt (p : CryptoPrims) (aesKeyHex : List Char) (iv pt : Bytes)
    (hpt : ∀ b ∈ pt, b < 256) : ∀ b ∈ serverCt p aesKeyHex iv pt, b < 256 :=
  xorKsFrom_lt p _ iv 0 pt hpt

theorem serverTag_lt (p : CryptoPrims) (aesKeyHex : List Char) (iv pt : Bytes) :
    ∀ b ∈ serverTag p aesKeyHex iv pt, b < 256 :=
  p.tag_lt _ _ _

theorem serverTag_length (p : CryptoPrims) (aesKeyHex : List Char) (iv pt : Bytes) :
    (serverTag p aesKeyHex iv pt).length = 16 :=
  p.tag_length _ _ _

theorem gcmDecrypt_matching_tag (p : CryptoPrims) (key iv ct : Bytes) :
    gcmDecrypt p key iv (ct ++ p.tag key iv ct) = some (xorKeystream p key iv ct) := by
  have hl : (ct ++ p.tag key iv ct).length - 16 = ct.length := by
    simp [List.length_append, p.tag_length key iv ct]
  simp only [gcmDecrypt, hl, List.take_left, List.drop_left, eq_self_iff_true, if_true]

theorem gcmDecrypt_bad_tag (p : CryptoPrims) (key iv ct tg : Bytes)
    (hlen : tg.length = 16) (hne : tg ≠ p.tag key iv ct) :
    gcmDecrypt p key iv (ct ++ tg) = none := by
  have hl : (ct ++ tg).length - 16 = ct.length := by
    simp [List.length_append, hlen]
  simp only [gcmDecrypt, hl, List.take_left, List.drop_left, if_neg hne]

/-- Decrypting an honestly produced envelope body recovers the plaintext. -/
theorem decryptData_encryptPayload (p : CryptoPrims) (aesKeyHex : List Char) (iv pt : Bytes)
    (hiv : ∀ b ∈ iv, b < 256) (hpt : ∀ b ∈ pt, b < 256) :
    decryptData p (base64Encode (serverCt p aesKeyHex iv pt)) (base64Encode iv)
      (base64Encode (serverTag p aesKeyHex iv pt)) aesKeyHex = Except.ok pt := by
  unfold decryptData
  rw [base64_decode_encode _ hiv,
    base64_decode_encode _ (serverCt_lt p aesKeyHex iv pt hpt),
    base64_decode_encode _ (serverTag_lt p aesKeyHex iv pt)]
  show (match gcmDecrypt p (hexToBytes aesKeyHex) iv
      (serverCt p aesKeyHex iv pt ++ serverTag p aesKeyHex iv pt) with
    | some ptBytes => Except.ok ptBytes
    | none => Except.error DecryptError.authenticationFailed) = Except.ok pt
  rw [serverTag, gcmDecrypt_matching_tag]
  show Except.ok (xorKeystream p (hexToBytes aesKeyHex) iv
    (xorKeystream p (hexToBytes aesKeyHex) iv pt)) = Except.ok pt
  rw [xorKeystream_xorKeystream]

/-- A list changed at an in-bounds position to a value different from the
one stored there is a different list. -/
theorem set_ne_self {α : Type} (l : List α) (i : Nat) (x : α) (hi : i < l.length)
    (hx : l[i]? ≠ some x) : l.set i x ≠ l := by
  intro he
  apply hx
  have h1 : (l.set i x)[i]? = some x := by
    rw [List.getElem?_set_self]
    exact hi
  rw [he] at h1
  exact h1

/-! ## Claims -/

/-- Claim C1: for every plaintext and every 32-byte session key
(transmitted as the 64-character hex string `generateAesKey` produces),
the client's `decryptData` applied to the envelope fields
(`encryptedData`, `iv`, `authTag`) produced by the server's AES-256-GCM
encryption under that key returns exactly the plaintext:
decrypt(encrypt(P, K), K) = P. -/
theorem claim1_decrypt_encrypt_roundtrip (p : CryptoPrims) (keyBytes iv pt : Bytes)
    (hklen : keyBytes.length = 32) (hkey : ∀ b ∈ keyBytes, b < 256)
    (hiv : ∀ b ∈ iv, b < 256) (hpt : ∀ b ∈ pt, b < 256) :
    decryptData p
      (encryptPayload p (generateAesKey keyBytes) iv pt).encryptedData
      (encryptPayload p (generateAesKey keyBytes) iv pt).iv
      (encryptPayload p (generateAesKey keyBytes) iv pt).authTag
      (generateAesKey keyBytes) = Except.ok pt := by
  have h := decryptData_encryptPayload p (generateAesKey keyBytes) iv pt hiv hpt
  simpa [encryptPayload, serverCt, serverTag, xorKeystream] using h

theorem claim1_witness :
    (List.replicate 32 0 : Bytes).length = 32 ∧
    decryptData toyPrims
      (encryptPayload toyPrims (generateAesKey (List.replicate 32 0)) [1] [104, 105]).encryptedData
      (encryptPayload toyPrims (generateAesKey (List.replicate 32 0)) [1] [104, 105]).iv
      (encryptPayload toyPrims (generateAesKey (List.replicate 32 0)) [1] [104, 105]).authTag
      (generateAesKey (List.replicate 32 0)) = Except.ok [104, 105] :=
  ⟨by decide,
    claim1_decrypt_encrypt_roundtrip toyPrims (List.replicate 32 0) [1] [104, 105]
      (by decide) (by decide) (by decide) (by decide)⟩

/-- Claim C3: altering any single byte of the envelope's ciphertext (or
of its authentication tag) before decryption makes the client's
`decryptData` fail with the authentication-failure error, returning an
`Except.error` and hence no plaintext.  For a ciphertext alteration the
conclusion uses GCM authenticity, stated as the hypothesis `hmac` that
the recomputed tag of the altered ciphertext differs from the original
tag. -/
theorem claim3_tamper_fails (p : CryptoPrims) (aesKeyHex : List Char) (iv pt : Bytes)
    (i x : Nat) (ct' tg' : Bytes)
    (hiv : ∀ b ∈ iv, b < 256) (hpt : ∀ b ∈ pt, b < 256) (hx : x < 256)
    (hcase :
      (ct' = (serverCt p aesKeyHex iv pt).set i x
        ∧ tg' = serverTag p aesKeyHex iv pt
        ∧ i < (serverCt p aesKeyHex iv pt).length
        ∧ (serverCt p aesKeyHex iv pt)[i]? ≠ some x)
      ∨ (ct' = serverCt p aesKeyHex iv pt
        ∧ tg' = (serverTag p aesKeyHex iv pt).set i x
        ∧ i < (serverTag p aesKeyHex iv pt).length
        ∧ (serverTag p aesKeyHex iv pt)[i]? ≠ some x))
    (hmac : ct' ≠ serverCt p aesKeyHex iv pt →
      p.tag (hexToBytes aesKeyHex) iv ct' ≠ serverTag p aesKeyHex iv pt) :
    decryptData p (base64Encode ct') (base64Encode iv) (base64Encode tg') aesKeyHex
      = Except.error DecryptError.authenticationFailed := by
  have main : tg'.length = 16 → (∀ b ∈ ct', b < 256) → (∀ b ∈ tg', b < 256) →
      tg' ≠ p.tag (hexToBytes aesKeyHex) iv ct' →
      decryptData p (base64Encode ct') (base64Encode iv) (base64Encode tg') aesKeyHex
        = Except.error DecryptError.authenticationFailed := by
    intro hlen hct'lt htg'lt hne
    unfold decryptData
    rw [base64_decode_encode _ hiv, base64_decode_encode _ hct'lt,
      base64_decode_encode _ htg'lt]
    show (match gcmDecrypt p (hexToBytes aesKeyHex) iv (ct' ++ tg') with
      | some ptBytes => Except.ok ptBytes
      | none => Except.error DecryptError.authenticationFailed) = _
    rw [gcmDecrypt_bad_tag p _ iv ct' tg' hlen hne]
  rcases hcase with ⟨hc, ht, hi, hgx⟩ | ⟨hc, ht, hi, hgx⟩
  · have hctne : ct' ≠ serverCt p aesKeyHex iv pt := hc ▸ set_ne_self _ i x hi hgx
    refine main (ht ▸ serverTag_length p aesKeyHex iv pt) ?_
      (ht ▸ serverTag_lt p aesKeyHex iv pt) ?_
    · subst hc
      intro b hb
      rcases List.mem_or_eq_of_mem_set hb with h | rfl
      · exact serverCt_lt p aesKeyHex iv pt hpt b h
      · exact hx
    · rw [ht]
      exact fun he => hmac hctne he.symm
  · have htgne : tg' ≠ serverTag p aesKeyHex iv pt := ht ▸ set_ne_self _ i x hi hgx
    refine main ?_ (hc ▸ serverCt_lt p aesKeyHex iv pt hpt) ?_ ?_
    · rw [ht, List.length_set]
      exact serverTag_length p aesKeyHex iv pt
    · subst ht
      intro b hb
      rcases List.mem_or_eq_of_mem_set hb with h | rfl
      · exact serverTag_lt p aesKeyHex iv pt b h
      · exact hx
    · rw [hc]
      exact htgne

theorem claim3_witness :
    (serverCt toyPrims (str "00") [1] [5, 6])[0]? ≠ some 9 ∧
    decryptData toyPrims
      (base64Encode ((serverCt toyPrims (str "00") [1] [5, 6]).set 0 9))
      (base64Encode [1])
      (base64Encode (serverTag toyPrims (str "00") [1] [5, 6]))
      (str "00")
      = Except.error DecryptError.authenticationFailed :=
  ⟨by decide,
    claim3_tamper_fails toyPrims (str "00") [1] [5, 6] 0 9
      ((serverCt toyPrims (str "00") [1] [5, 6]).set 0 9)
      (serverTag toyPrims (str "00") [1] [5, 6])
      (by decide) (by decide) (by decide)
      (Or.inl ⟨rfl, rfl, by decide, by decide⟩)
      (by decide)⟩

/-- Claim C4: `verifyDataIntegrity` returns true exactly when the
base64-encoded SHA-256 digest of the received plaintext equals the
expected hash string, and verifying an honestly produced envelope's
decrypted plaintext against its `hash` field returns true. -/
theorem claim4_verify_integrity (p : CryptoPrims) (d pt iv : Bytes)
    (aesKeyHex expectedHash : List Char) :
    (verifyDataIntegrity p d expectedHash = true ↔
      base64Encode (p.sha256 d) = expectedHash)
    ∧ verifyDataIntegrity p pt (encryptPayload p aesKeyHex iv pt).hash = true := by
  constructor
  · simp [verifyDataIntegrity]
  · simp [verifyDataIntegrity, encryptPayload]

/-- Claim C5: format contract — the envelope's decoded IV is exactly 16
bytes and its decoded GCM tag exactly 16 bytes; the client's generated
session key is 32 bytes serialized as a 64-character lowercase hex string
that parses back to exactly those 32 bytes. -/
theorem claim5_format_contract (p : CryptoPrims) (aesKeyHex : List Char) (pt : Bytes)
    (ivd : IvDraw) (rand32 : Bytes) (hlen : rand32.length = 32)
    (hrand : ∀ b ∈ rand32, b < 256) :
    (base64Decode (encryptPayload p aesKeyHex ivd.bytes pt).iv).length = 16
    ∧ (base64Decode (encryptPayload p aesKeyHex ivd.bytes pt).authTag).length = 16
    ∧ (generateAesKey rand32).length = 64
    ∧ (∀ c ∈ generateAesKey rand32, isLowerHexDigit c)
    ∧ hexToBytes (generateAesKey rand32) = rand32 := by
  refine ⟨?_, ?_, ?_, generateAesKey_chars rand32 hrand,
    hexToBytes_generateAesKey rand32 hrand⟩
  · show (base64Decode (base64Encode ivd.bytes)).length = 16
    rw [base64_decode_encode _ ivd.lt, ivd.length_eq]
  · show (base64Decode (base64Encode (serverTag p aesKeyHex ivd.bytes pt))).length = 16
    rw [base64_decode_encode _ (serverTag_lt p aesKeyHex ivd.bytes pt),
      serverTag_length]
  · rw [generateAesKey_length, hlen]

theorem claim5_witness :
    (base64Decode (encryptPayload toyPrims (str "00") toyIv.bytes [1]).iv).length = 16
    ∧ (base64Decode (encryptPayload toyPrims (str "00") toyIv.bytes [1]).authTag).length = 16
    ∧ (generateAesKey (List.replicate 32 7)).length = 64
    ∧ (∀ c ∈ generateAesKey (List.replicate 32 7), isLowerHexDigit c)
    ∧ hexToBytes (generateAesKey (List.replicate 32 7)) = List.replicate 32 7 :=
  claim5_format_contract toyPrims (str "00") [1] toyIv (List.replicate 32 7)
    (by decide) (by decide)

/-- Claim C6: two encryption runs of the same plaintext under the same
key with independent fresh randomness produce different nonces and
different ciphertexts.  The "independent fresh randomness" event is
modelled by the hypotheses that the two 16-byte IV draws differ and that
the AES keystreams they induce differ at the first byte (both hold for
random draws except with negligible probability). -/
theorem claim6_two_runs_differ (p : CryptoPrims) (aesKeyHex : List Char) (pt : Bytes)
    (d1 d2 : IvDraw) (hne : d1.bytes ≠ d2.bytes) (hpt : ∀ b ∈ pt, b < 256)
    (hpt0 : pt ≠ [])
    (hks : p.ks (hexToBytes aesKeyHex) d1.bytes 0
      ≠ p.ks (hexToBytes aesKeyHex) d2.bytes 0) :
    (encryptPayload p aesKeyHex d1.bytes pt).iv
      ≠ (encryptPayload p aesKeyHex d2.bytes pt).iv
    ∧ (encryptPayload p aesKeyHex d1.bytes pt).encryptedData
      ≠ (encryptPayload p aesKeyHex d2.bytes pt).encryptedData := by
  constructor
  · show base64Encode d1.bytes ≠ base64Encode d2.bytes
    intro he
    exact hne (base64Encode_injOn _ _ d1.lt d2.lt he)
  · show base64Encode (serverCt p aesKeyHex d1.bytes pt)
      ≠ base64Encode (serverCt p aesKeyHex d2.bytes pt)
    intro he
    have hceq := base64Encode_injOn _ _
      (serverCt_lt p aesKeyHex d1.bytes pt hpt)
      (serverCt_lt p aesKeyHex d2.bytes pt hpt) he
    match pt, hpt0 with
    | b :: rest, _ =>
      simp only [serverCt, xorKeystream, xorKsFrom, List.cons.injEq] at hceq
      exact hks (Nat.xor_right_inj.mp hceq.1)

theorem toyRSA_matching (pk : List Char) : ∀ m w, toyRSA.encrypt pk m = some w →
    toyRSA.decrypt pk w = some m := by
  intro m w h
  simp only [toyRSA, Option.some.injEq] at h
  subst h
  simp [toyRSA, List.take_left, List.drop_left]

/-- Claim C2: wrapping the hex session key with the client's
`encryptAesKey` (RSA under the server public key) and unwrapping on the
server with the matching private key recovers exactly the original key
string, which the server then uses to build the envelope; unwrapping
under any other keypair fails and is answered with HTTP 400
`Invalid encrypted AES key` — a client error, not a server fault. -/
theorem claim2_wrap_unwrap {α : Type} (ctx : ServerCtx α) (st : CMState)
    (aesKey wrapped priv2 : List Char) (vocab : List α)
    (volume unit : List Char) (ivd : IvDraw)
    (hst : st.inited = true) (hpk : st.publicKey = some ctx.pub)
    (hwrap : ctx.rsa.encrypt ctx.pub aesKey = some wrapped)
    (hmatch : ∀ m w, ctx.rsa.encrypt ctx.pub m = some w →
      ctx.rsa.decrypt ctx.priv w = some m)
    (hfail : ctx.rsa.decrypt priv2 wrapped = none)
    (hw : wrapped ≠ [])
    (hfile : ctx.files (fileName volume unit) = some vocab) :
    encryptAesKey ctx.rsa st aesKey = Except.ok wrapped
    ∧ ctx.rsa.decrypt ctx.priv wrapped = some aesKey
    ∧ secureVocabHandler ctx ivd volume unit (some wrapped)
        = ⟨200, ResponseBody.envelope
            (encryptPayload ctx.prims aesKey ivd.bytes (ctx.ser.toBytes vocab))⟩
    ∧ secureVocabHandler { ctx with priv := priv2 } ivd volume unit (some wrapped)
        = ⟨400, ResponseBody.errMsg (str "Invalid encrypted AES key")⟩ := by
  have hdec := hmatch aesKey wrapped hwrap
  have hE : wrapped.isEmpty = false := List.isEmpty_eq_false.mpr hw
  refine ⟨?_, hdec, ?_, ?_⟩
  · simp [encryptAesKey, hst, hpk, hwrap]
  · simp [secureVocabHandler, hE, hdec, hfile]
  · simp [secureVocabHandler, hE, hfail]

theorem claim2_witness :
    encryptAesKey toyRSA ⟨some (str "k"), true⟩ (str "00") = Except.ok (str "k00")
    ∧ toyCtx.rsa.decrypt toyCtx.priv (str "k00") = some (str "00")
    ∧ secureVocabHandler toyCtx toyIv (str "1") (str "2") (some (str "k00"))
        = ⟨200, ResponseBody.envelope
            (encryptPayload toyCtx.prims (str "00") toyIv.bytes
              (toyCtx.ser.toBytes [10, 20, 30]))⟩
    ∧ secureVocabHandler { toyCtx with priv := str "qq" } toyIv (str "1") (str "2")
        (some (str "k00"))
        = ⟨400, ResponseBody.errMsg (str "Invalid encrypted AES key")⟩ :=
  claim2_wrap_unwrap toyCtx ⟨some (str "k"), true⟩ (str "00") (str "k00") (str "qq")
    [10, 20, 30] (str "1") (str "2") toyIv rfl rfl (by decide)
    (toyRSA_matching (str "k")) (by decide) (by decide) (by decide)

theorem claim6_witness :
    (encryptPayload toyPrims (str "00") toyIv.bytes [5]).iv
      ≠ (encryptPayload toyPrims (str "00") toyIv2.bytes [5]).iv
    ∧ (encryptPayload toyPrims (str "00") toyIv.bytes [5]).encryptedData
      ≠ (encryptPayload toyPrims (str "00") toyIv2.bytes [5]).encryptedData :=
  claim6_two_runs_differ toyPrims (str "00") [5] toyIv toyIv2
    (by decide) (by decide) (by decide) (by decide)

/-! ## Non-disclosure of the private key (claim C7) -/

theorem not_infix_of_dash (p s : List Char) (hd : '-' ∈ p) (hs : '-' ∉ s) :
    ¬ List.IsInfix p s := by
  rintro ⟨t, u, rfl⟩
  exact hs (by simp [hd])

theorem dash_not_mem_digits (l : List Char) : '-' ∉ l.takeWhile Char.isDigit := by
  intro h
  have := List.mem_takeWhile_imp h
  simp [Char.isDigit] at this

theorem matchVocabAt_noDash (l v u : List Char) (h : matchVocabAt l = some (v, u)) :
    '-' ∉ v ∧ '-' ∉ u := by
  unfold matchVocabAt at h
  split at h
  · exact absurd h (by simp)
  · split at h
    · exact absurd h (by simp)
    · split at h
      · exact absurd h (by simp)
      · split at h
        · split at h
          · exact absurd h (by simp)
          · split at h
            · simp only [Option.some.injEq, Prod.mk.injEq] at h
              obtain ⟨rfl, rfl⟩ := h
              exact ⟨dash_not_mem_digits _, dash_not_mem_digits _⟩
            · exact absurd h (by simp)
        · split at h
          · simp only [Option.some.injEq, Prod.mk.injEq] at h
            obtain ⟨rfl, rfl⟩ := h
            exact ⟨dash_not_mem_digits _, by decide⟩
          · exact absurd h (by simp)

theorem searchVocabName_noDash (l : List Char) (v u : List Char)
    (h : searchVocabName l = some (v, u)) : '-' ∉ v ∧ '-' ∉ u := by
  induction l with
  | nil => exact absurd h (by simp [searchVocabName])
  | cons c rest ih =>
    unfold searchVocabName at h
    split at h
    · rename_i r hr
      cases h
      exact matchVocabAt_noDash _ _ _ hr
    · exact ih h

theorem unitsHandler_noDash (fns : List (List Char)) :
    ∀ pr ∈ unitsHandler fns, '-' ∉ pr.1 ∧ '-' ∉ pr.2 := by
  intro pr hpr
  obtain ⟨v, u⟩ := pr
  unfold unitsHandler at hpr
  rcases List.mem_filterMap.mp hpr with ⟨name, _, hsearch⟩
  exact searchVocabName_noDash name v u hsearch

theorem notFoundMsg_noDash (volume unit : List Char) (hv : '-' ∉ volume)
    (hu : '-' ∉ unit) : '-' ∉ notFoundMsg volume unit := by
  intro h
  unfold notFoundMsg at h
  simp only [List.mem_append] at h
  rcases h with ((((h | h) | h) | h) | h)
  · exact absurd h (by decide)
  · exact hv h
  · exact absurd h (by decide)
  · exact hu h
  · exact absurd h (by decide)

/-- The strings in an envelope response carry only base64 characters. -/
theorem envelope_strings_noDash (p : CryptoPrims) (aesKeyHex : List Char)
    (ivd : IvDraw) (pt : Bytes) (hpt : ∀ b ∈ pt, b < 256) :
    ∀ s ∈ respStrings ⟨200, ResponseBody.envelope (encryptPayload p aesKeyHex ivd.bytes pt)⟩,
      '-' ∉ s := by
  intro s hs
  simp only [respStrings, encryptPayload, List.mem_cons, List.not_mem_nil, or_false] at hs
  rcases hs with rfl | rfl | rfl | rfl
  · exact dash_not_mem_base64Encode _ (serverCt_lt p aesKeyHex ivd.bytes pt hpt)
  · exact dash_not_mem_base64Encode _ ivd.lt
  · exact dash_not_mem_base64Encode _ (p.tag_lt _ _ _)
  · exact dash_not_mem_base64Encode _ (p.sha256_lt _)

theorem secureVocabHandler_noDash {α : Type} (ctx : ServerCtx α) (ivd : IvDraw)
    (volume unit : List Char) (body : Option (List Char))
    (hv : '-' ∉ volume) (hu : '-' ∉ unit) :
    ∀ s ∈ respStrings (secureVocabHandler ctx ivd volume unit body), '-' ∉ s := by
  intro s hs
  unfold secureVocabHandler at hs
  split at hs
  · simp only [respStrings, List.mem_singleton] at hs
    subst hs
    decide
  · split at hs
    · simp only [respStrings, List.mem_singleton] at hs
      subst hs
      decide
    · split at hs
      · simp only [respStrings, List.mem_singleton] at hs
        subst hs
        decide
      · split at hs
        · simp only [respStrings, List.mem_singleton] at hs
          subst hs
          exact notFoundMsg_noDash volume unit hv hu
        · exact envelope_strings_noDash ctx.prims _ ivd _ (ctx.ser.lt _) s hs

theorem secureVocabCountHandler_noDash {α : Type} (ctx : ServerCtx α) (ivd : IvDraw)
    (sh : Shuffler) (volume unit count : List Char) (body : Option (List Char))
    (hv : '-' ∉ volume) (hu : '-' ∉ unit) :
    ∀ s ∈ respStrings (secureVocabCountHandler ctx ivd sh volume unit count body),
      '-' ∉ s := by
  intro s hs
  unfold secureVocabCountHandler at hs
  split at hs
  · simp only [respStrings, List.mem_singleton] at hs
    subst hs
    decide
  · split at hs
    · simp only [respStrings, List.mem_singleton] at hs
      subst hs
      decide
    · split at hs
      · simp only [respStrings, List.mem_singleton] at hs
        subst hs
        decide
      · split at hs
        · simp only [respStrings, List.mem_singleton] at hs
          subst hs
          decide
        · split at hs
          · simp only [respStrings, List.mem_singleton] at hs
            subst hs
            decide
          · split at hs
            · simp only [respStrings, List.mem_singleton] at hs
              subst hs
              exact notFoundMsg_noDash volume unit hv hu
            · exact envelope_strings_noDash ctx.prims _ ivd _ (ctx.ser.lt _) s hs

/-- Claim C7: the server's private key is never transmitted — no string
in any HTTP response of any endpoint contains the private key, which only
enters responses through `GET /api/publicKey` returning the public half.
The hypotheses state that the private PEM contains a dash (every PEM
header does), is not contained in the public PEM, and is not contained in
the client-supplied path parameters. -/
theorem claim7_private_key_never_sent {α : Type} (ctx : ServerCtx α) (ivd : IvDraw)
    (sh : Shuffler) (req : Request)
    (hdash : '-' ∈ ctx.priv)
    (hpub : ¬ List.IsInfix ctx.priv ctx.pub)
    (hparams : ∀ s ∈ reqParams req, '-' ∉ s) :
    ∀ s ∈ respStrings (serve ctx ivd sh req), ¬ List.IsInfix ctx.priv s := by
  intro s hs
  match req with
  | Request.publicKey =>
    simp only [serve, respStrings, List.mem_singleton] at hs
    subst hs
    exact hpub
  | Request.units =>
    apply not_infix_of_dash _ _ hdash
    simp only [serve, respStrings, List.mem_append] at hs
    rcases hs with hs | hs
    · rcases List.mem_map.mp hs with ⟨pr, hpr, rfl⟩
      exact (unitsHandler_noDash ctx.fileNames pr hpr).1
    · rcases List.mem_map.mp hs with ⟨pr, hpr, rfl⟩
      exact (unitsHandler_noDash ctx.fileNames pr hpr).2
  | Request.secureVocab volume unit body =>
    apply not_infix_of_dash _ _ hdash
    have hv : '-' ∉ volume := hparams volume (by simp [reqParams])
    have hu : '-' ∉ unit := hparams unit (by simp [reqParams])
    exact secureVocabHandler_noDash ctx ivd volume unit body hv hu s hs
  | Request.secureVocabCount volume unit count body =>
    apply not_infix_of_dash _ _ hdash
    have hv : '-' ∉ volume := hparams volume (by simp [reqParams])
    have hu : '-' ∉ unit := hparams unit (by simp [reqParams])
    exact secureVocabCountHandler_noDash ctx ivd sh volume unit count body hv hu s hs

theorem claim7_witness :
    '-' ∈ str "-----p" ∧
    ¬ List.IsInfix (str "-----p")
      ((respStrings (serve { toyCtx with priv := str "-----p", pub := str "PUB" }
        toyIv toyShuffler Request.publicKey)).headD []) :=
  ⟨by decide,
    claim7_private_key_never_sent { toyCtx with priv := str "-----p", pub := str "PUB" }
      toyIv toyShuffler Request.publicKey (by decide) (by decide)
      (by simp [reqParams])
      _ (by decide)⟩

/-! ## Claim C8: the lazy-initialization race -/

/-- Claim C8 (counterexample): in the canonical concurrent scenario — two
first-time calls both reaching the `if (!cryptoInitialized)` guard before
either completes (schedule A-start, B-start, A-resume, B-resume) — the
code performs two public-key fetches, not the one the claim demands, even
though both calls complete. -/
theorem claim8_counterexample :
    (runSched [true, false, true, false] initialTasks).st.fetchCount = 2
    ∧ (runSched [true, false, true, false] initialTasks).st.fetchCount ≠ 1
    ∧ (runSched [true, false, true, false] initialTasks).pcA = TaskPc.done
    ∧ (runSched [true, false, true, false] initialTasks).pcB = TaskPc.done := by
  decide

/-- Claim C8 (amended): the one-time initialization is not serialized —
two concurrent first-time calls (each starting before the other
completes, in either order) each trigger a public-key fetch, for two
fetches in total; only when the calls are serialized (the second starts
after the first completed) is a single fetch performed, and any call
arriving after a completed initialization performs no fetch at all. -/
theorem claim8_amended (x : Bool) (n : Nat) :
    (runSched [x, !x, x, !x] initialTasks).st.fetchCount = 2
    ∧ (runSched [x, x, !x, !x] initialTasks).st.fetchCount = 1
    ∧ initStep (TaskPc.start, ⟨true, n⟩) = (TaskPc.done, ⟨true, n⟩) := by
  cases x
  · exact ⟨by decide, by decide, rfl⟩
  · exact ⟨by decide, by decide, rfl⟩

/-! ## Claim C9: error kinds reaching the caller -/

/-- Claim C9 (counterexample): a server 404 and a network failure produce
the very same result of `loadServerVocabularyData` (the `null` return of
its catch-all), so the caller cannot distinguish them — they are not
surfaced as distinct error kinds. -/
theorem claim9_counterexample :
    loadServerVocabularyData toyPrims (str "00") (FetchOutcome.httpError 404)
      = loadServerVocabularyData toyPrims (str "00") FetchOutcome.networkFailure
    ∧ loadServerVocabularyData toyPrims (str "00") (FetchOutcome.httpError 404) = none :=
  ⟨rfl, rfl⟩

/-- Claim C9 (amended): every non-OK HTTP response (404 included) and
every network failure is caught inside `loadServerVocabularyData` and
surfaced identically as a `null` return; no distinct error kinds reach
the caller. -/
theorem claim9_amended (p : CryptoPrims) (aesKeyHex : List Char) (status : Nat) :
    loadServerVocabularyData p aesKeyHex (FetchOutcome.httpError status) = none
    ∧ loadServerVocabularyData p aesKeyHex FetchOutcome.networkFailure = none
    ∧ loadServerVocabularyData p aesKeyHex (FetchOutcome.httpError status)
      = loadServerVocabularyData p aesKeyHex FetchOutcome.networkFailure :=
  ⟨rfl, rfl, rfl⟩

theorem selectedWords_length {α : Type} (sh : Shuffler) (w : Nat) (vocab : List α) :
    (selectedWords sh w vocab).length = min w vocab.length := by
  simp only [selectedWords, List.length_take, shuffleArray_length]
  omega

theorem selectedWords_subset {α : Type} (sh : Shuffler) (w : Nat) (vocab : List α) :
    ∀ x ∈ selectedWords sh w vocab, x ∈ vocab := by
  intro x hx
  have hx' : x ∈ shuffleArray sh vocab := List.mem_of_mem_take hx
  exact (shuffleArray_perm sh vocab).mem_iff.mp hx'

/-- Claim C10: the count endpoint rejects every `count` path parameter
that does not parse (via `parseInt(count, 10)`) to an integer at least 1
with HTTP 400 and an error body; otherwise, for an existing volume/unit
and a well-formed wrapped key, it answers with the same AES-256-GCM
envelope scheme as the primary endpoint, over exactly
`min(count, number of words)` words selected from the unit's
vocabulary. -/
theorem claim10_count_endpoint {α : Type} (ctx : ServerCtx α) (ivd : IvDraw)
    (sh : Shuffler) (volume unit count : List Char) (body : Option (List Char))
    (w : Int) (wrapped aesKey : List Char) (vocab : List α) :
    (parseIntJS count = none →
      secureVocabCountHandler ctx ivd sh volume unit count body
        = ⟨400, ResponseBody.errMsg (str "Invalid count parameter")⟩)
    ∧ (parseIntJS count = some w → w < 1 →
      secureVocabCountHandler ctx ivd sh volume unit count body
        = ⟨400, ResponseBody.errMsg (str "Invalid count parameter")⟩)
    ∧ (parseIntJS count = some w → 1 ≤ w →
      wrapped ≠ [] →
      ctx.rsa.decrypt ctx.priv wrapped = some aesKey →
      ctx.files (fileName volume unit) = some vocab →
      secureVocabCountHandler ctx ivd sh volume unit count (some wrapped)
        = ⟨200, ResponseBody.envelope
            (encryptPayload ctx.prims aesKey ivd.bytes
              (ctx.ser.toBytes (selectedWords sh w.toNat vocab)))⟩
      ∧ (selectedWords sh w.toNat vocab).length = min w.toNat vocab.length
      ∧ ∀ x ∈ selectedWords sh w.toNat vocab, x ∈ vocab) := by
  refine ⟨?_, ?_, ?_⟩
  · intro hp
    simp [secureVocabCountHandler, hp]
  · intro hp hlt
    simp [secureVocabCountHandler, hp, hlt]
  · intro hp hge hw hdec hfile
    have hE : wrapped.isEmpty = false := List.isEmpty_eq_false.mpr hw
    have hnlt : ¬ w < 1 := by omega
    refine ⟨?_, selectedWords_length sh w.toNat vocab, selectedWords_subset sh w.toNat vocab⟩
    simp [secureVocabCountHandler, hp, hnlt, hE, hdec, hfile, selectedWords]

theorem claim10_witness :
    secureVocabCountHandler toyCtx toyIv toyShuffler (str "1") (str "2") (str "x")
      (some (str "k00"))
      = ⟨400, ResponseBody.errMsg (str "Invalid count parameter")⟩
    ∧ (secureVocabCountHandler toyCtx toyIv toyShuffler (str "1") (str "2") (str "2")
        (some (str "k00"))
        = ⟨200, ResponseBody.envelope
            (encryptPayload toyCtx.prims (str "00") toyIv.bytes
              (toyCtx.ser.toBytes (selectedWords toyShuffler (2 : Int).toNat [10, 20, 30])))⟩
      ∧ (selectedWords toyShuffler (2 : Int).toNat ([10, 20, 30] : List Nat)).length
          = min (2 : Int).toNat ([10, 20, 30] : List Nat).length
      ∧ ∀ x ∈ selectedWords toyShuffler (2 : Int).toNat ([10, 20, 30] : List Nat),
          x ∈ ([10, 20, 30] : List Nat)) :=
  ⟨(claim10_count_endpoint toyCtx toyIv toyShuffler (str "1") (str "2") (str "x")
      (some (str "k00")) 0 (str "k00") (str "00") [10, 20, 30]).1 (by decide),
    (claim10_count_endpoint toyCtx toyIv toyShuffler (str "1") (str "2") (str "2")
      (some (str "k00")) 2 (str "k00") (str "00") [10, 20, 30]).2.2
      (by decide) (by decide) (by decide) (by decide) (by decide)⟩

end WordMatch
